import Mathlib

/-!
Shallow embedding of `app/src/main/cpp/llama-jni.cpp` (the llama.cpp JNI
bridge of the WeChatAutoReply app) and proofs about its generation loop,
lifecycle management and error handling.

Modelling choices:

* The llama.cpp library is external to the repository; its calls are
  modelled as an environment record (`GenEnv` for the generation path,
  `LoadEnv` for the load path) of pure functions.  The bridge's own control
  flow — every branch of `nativeLoadModel`, `nativeGenerate`,
  `nativeIsLoaded`, `nativeFree` — is translated line by line.
* The global mutable `g_llama` (`struct LlamaContext`) becomes an explicit
  state `GState` threaded through the operations.
* A C++ `std::string` is modelled as `List Char`; `llama_token` (an
  `int32_t`) as `Int`; `jint` as `Int`.  The `jfloat` temperature is never
  computed with by the bridge (it is passed through to
  `llama_sampler_init_temp`), so it is modelled as an opaque scalar.
* The context's KV cache content is modelled as the list of tokens decoded
  into the context since the last clear; `llama_memory_clear` resets it to
  `[]`, a successful `llama_decode` appends the batch.
* Each operation additionally returns a trace of `Event`s recording, in
  order, the externally visible llama.cpp calls it made.  Claims about
  ordering ("clears the KV cache first", "frees before constructing") and
  about absence of work are stated on this trace.
-/

namespace LlamaJNI

/-- `llama_token` is `int32_t`. -/
abbrev Token := Int

/-- A C++ `std::string` (byte string), modelled as a list of characters. -/
abbrev Str := List Char

/-- The `jfloat` temperature parameter.  The bridge never computes with it
(it is handed unchanged to `llama_sampler_init_temp`), so it is modelled as
an opaque scalar value. -/
abbrev Temperature := Int

/-- `LLAMA_DEFAULT_SEED` from `llama.h` (`0xFFFFFFFF`): the fixed,
non-caller-configurable seed passed to `llama_sampler_init_dist` at
line 181 of `llama-jni.cpp`. -/
def LLAMA_DEFAULT_SEED : Nat := 0xFFFFFFFF

/-- Externally visible llama.cpp calls made by the bridge, in order. -/
inductive Event where
  | memClear : Event
  | tokenizeEv (text : Str) : Event
  | decodeEv (batch : List Token) : Event
  | sampleEv (tok : Token) : Event
  | samplerInitEv (temp : Temperature) (seed : Nat) : Event
  | samplerFreeEv : Event
  | freeCtxEv (handle : Nat) : Event
  | freeModelEv (handle : Nat) : Event
  | loadModelEv (path : Str) : Event
  | createCtxEv (model : Nat) (nCtx nThreads : Int) : Event
  | backendFreeEv : Event
  deriving DecidableEq, Repr

/-- The global `static LlamaContext g_llama` of `llama-jni.cpp`:
`llama_model *`, `llama_context *` and `const llama_vocab *` handles plus
the `is_loaded` flag.  `kv` is the KV-cache content of the live context
(tokens decoded since the last clear) and `nCtx` the context's token
capacity (what `llama_n_ctx` reports), both properties of the `ctx`
handle, carried here explicitly. -/
structure GState where
  model : Option Nat
  ctx : Option Nat
  vocab : Option Nat
  is_loaded : Bool
  kv : List Token
  nCtx : Nat
  deriving DecidableEq, Repr

/-- Environment for `nativeLoadModel`: the llama.cpp calls it makes. -/
structure LoadEnv where
  /-- `llama_model_load_from_file`: `none` models a null return. -/
  loadModelFromFile : Str → Option Nat
  /-- `llama_model_get_vocab`. -/
  getVocab : Nat → Nat
  /-- `llama_init_from_model` with `ctx_params.n_ctx` and thread counts;
  `none` models a null return (context allocation failure). -/
  initFromModel : Nat → Int → Int → Option Nat

/-- Environment for `nativeGenerate`: the llama.cpp calls it makes. -/
structure GenEnv where
  /-- Whether `llama_get_memory(ctx)` returns a non-null memory handle. -/
  hasMemory : Bool
  /-- The true token sequence of a text under `llama_tokenize` with
  `add_special = true`, `parse_special = true`. -/
  tokenizeFull : Str → List Token
  /-- Whether `llama_decode` of a batch succeeds (returns 0), as a function
  of the current KV-cache content and the batch. -/
  decodeOk : List Token → List Token → Bool
  /-- `llama_sampler_sample` through the temperature+dist chain: a function
  of the temperature stage, the dist stage's seed, and the current KV-cache
  content (logits of the last position). -/
  sample : Temperature → Nat → List Token → Token
  /-- `llama_vocab_is_eog`. -/
  isEog : Token → Bool
  /-- `llama_token_to_piece` into the 256-byte buffer: `some s` when it
  returns `n > 0` with piece `s`; `none` when it returns `n ≤ 0` (the
  bridge then appends nothing). -/
  tokenToPiece : Token → Option Str

/-- The text fragment appended for a sampled token: the piece when
`llama_token_to_piece` returned `n > 0`, nothing otherwise
(lines 199–203). -/
def pieceText (env : GenEnv) (t : Token) : Str :=
  (env.tokenToPiece t).getD []

/-- The hard-coded ChatML stop marker checked at line 206. -/
def stopMarker : Str := "<|im_end|>".toList

/-- `std::string::find`: index of the first occurrence of `pat` as a
substring, `none` when absent (`npos`). -/
def findSub (pat : Str) : Str → Option Nat
  | [] => if pat.isEmpty then some 0 else none
  | c :: rest =>
    if pat.isPrefixOf (c :: rest) then some 0
    else (findSub pat rest).map (fun n => n + 1)

/-- `llama_tokenize`'s return value (line 156): the token count when it
fits the buffer (sized `llama_n_ctx(ctx)`), negative on overflow. -/
def llama_tokenize (env : GenEnv) (text : Str) (nTokensMax : Nat) : Int :=
  let n := (env.tokenizeFull text).length
  if n > nTokensMax then -(n : Int) else (n : Int)

/-- The per-token generation loop of `nativeGenerate` (lines 188–219):
sample; stop on an end-of-generation token (not appended); append the
detokenized piece; truncate-and-stop on the stop marker; incrementally
decode the token, stopping early on decode failure.  `fuel` is the number
of remaining iterations (`max_gen - i`), `kv` the KV-cache content, `acc`
the accumulated `result` string.  Returns the result string, the final
KV-cache content and the trace. -/
def genLoop (env : GenEnv) (temp : Temperature) :
    Nat → List Token → Str → Str × List Token × List Event
  | 0, kv, acc => (acc, kv, [])
  | fuel + 1, kv, acc =>
    let t := env.sample temp LLAMA_DEFAULT_SEED kv
    if env.isEog t then
      (acc, kv, [Event.sampleEv t])
    else
      let acc2 := acc ++ pieceText env t
      match findSub stopMarker acc2 with
      | some pos => (acc2.take pos, kv, [Event.sampleEv t])
      | none =>
        if env.decodeOk kv [t] then
          let r := genLoop env temp fuel (kv ++ [t]) acc2
          (r.1, r.2.1, Event.sampleEv t :: Event.decodeEv [t] :: r.2.2)
        else
          (acc2, kv, [Event.sampleEv t, Event.decodeEv [t]])

/-- `Java_com_example_wechatautoreply_ai_LlamaEngine_nativeGenerate`
(lines 133–225).  Returns the generated text, the new global state and the
trace of llama.cpp calls. -/
def nativeGenerate (env : GenEnv) (st : GState) (prompt : Str) (maxTokens : Int)
    (temp : Temperature) : Str × GState × List Event :=
  if !st.is_loaded || st.ctx.isNone || st.model.isNone then
    ([], st, [])
  else
    let cl : List Token × List Event :=
      if env.hasMemory then ([], [Event.memClear]) else (st.kv, [])
    let kv0 := cl.1
    let tr0 := cl.2 ++ [Event.tokenizeEv prompt]
    if llama_tokenize env prompt st.nCtx < 0 then
      ([], { st with kv := kv0 }, tr0)
    else
      let promptToks := env.tokenizeFull prompt
      let tr1 := tr0 ++ [Event.decodeEv promptToks]
      if env.decodeOk kv0 promptToks then
        let r := genLoop env temp maxTokens.toNat (kv0 ++ promptToks) []
        (r.1, { st with kv := r.2.1 },
          tr1 ++ [Event.samplerInitEv temp LLAMA_DEFAULT_SEED] ++ r.2.2 ++
            [Event.samplerFreeEv])
      else
        ([], { st with kv := kv0 }, tr1)

/-- `Java_com_example_wechatautoreply_ai_LlamaEngine_nativeLoadModel`
(lines 73–124).  Returns the success flag, the new global state and the
trace. -/
def nativeLoadModel (env : LoadEnv) (st : GState) (modelPath : Str)
    (nThreads nCtx : Int) : Bool × GState × List Event :=
  let pre : GState × List Event :=
    if st.is_loaded then
      let p1 : GState × List Event :=
        match st.ctx with
        | some c => ({ st with ctx := none }, [Event.freeCtxEv c])
        | none => (st, [])
      let p2 : GState × List Event :=
        match p1.1.model with
        | some m => ({ p1.1 with model := none }, p1.2 ++ [Event.freeModelEv m])
        | none => p1
      ({ p2.1 with is_loaded := false }, p2.2)
    else (st, [])
  let st1 := pre.1
  let tr := pre.2 ++ [Event.loadModelEv modelPath]
  match env.loadModelFromFile modelPath with
  | none => (false, { st1 with model := none }, tr)
  | some m =>
    let st2 := { st1 with model := some m, vocab := some (env.getVocab m) }
    let tr2 := tr ++ [Event.createCtxEv m nCtx nThreads]
    match env.initFromModel m nCtx nThreads with
    | none => (false, { st2 with model := none }, tr2 ++ [Event.freeModelEv m])
    | some c =>
      (true,
       { st2 with ctx := some c, is_loaded := true, kv := [], nCtx := nCtx.toNat },
       tr2)

/-- `nativeIsLoaded` (lines 230–235). -/
def nativeIsLoaded (st : GState) : Bool := st.is_loaded

/-- `nativeFree` (lines 240–255). -/
def nativeFree (st : GState) : GState × List Event :=
  let p1 : GState × List Event :=
    match st.ctx with
    | some c => ({ st with ctx := none }, [Event.freeCtxEv c])
    | none => (st, [])
  let p2 : GState × List Event :=
    match p1.1.model with
    | some m => ({ p1.1 with model := none }, p1.2 ++ [Event.freeModelEv m])
    | none => p1
  ({ p2.1 with is_loaded := false }, p2.2 ++ [Event.backendFreeEv])

/-! ### Derived notions used by the theorems -/

/-- Whether an event is a sampling call. -/
def isSampleEv : Event → Bool
  | Event.sampleEv _ => true
  | _ => false

/-- Number of sampling calls in a trace — the number of loop iterations
that ran. -/
def sampleCount (tr : List Event) : Nat := tr.countP isSampleEv

/-- The token the sampler chain produces from KV-cache content `kv`
(always with the fixed default seed). -/
def stepTok (env : GenEnv) (temp : Temperature) (kv : List Token) : Token :=
  env.sample temp LLAMA_DEFAULT_SEED kv

/-- One full accepted iteration of the loop, acting on the pair
(KV-cache content, accumulated text). -/
def stepKvAcc (env : GenEnv) (temp : Temperature) (s : List Token × Str) :
    List Token × Str :=
  (s.1 ++ [stepTok env temp s.1], s.2 ++ pieceText env (stepTok env temp s.1))

/-- The (KV-cache content, accumulated text) pair after `k` fully accepted
iterations from `s`. -/
def loopState (env : GenEnv) (temp : Temperature) :
    Nat → List Token × Str → List Token × Str
  | 0, s => s
  | k + 1, s => loopState env temp k (stepKvAcc env temp s)

/-- The iteration starting from `s` is fully accepted: the sampled token is
not end-of-generation, the stop marker does not occur in the text after the
append, and the incremental decode succeeds. -/
def stepOkB (env : GenEnv) (temp : Temperature) (s : List Token × Str) : Bool :=
  !env.isEog (stepTok env temp s.1) &&
    (findSub stopMarker (s.2 ++ pieceText env (stepTok env temp s.1))).isNone &&
    env.decodeOk s.1 [stepTok env temp s.1]

/-- The trace contributed by `k` fully accepted iterations from `s`. -/
def accTrace (env : GenEnv) (temp : Temperature) :
    Nat → List Token × Str → List Event
  | 0, _ => []
  | k + 1, s =>
    Event.sampleEv (stepTok env temp s.1) ::
      Event.decodeEv [stepTok env temp s.1] ::
        accTrace env temp k (stepKvAcc env temp s)

/-- The tokens sampled by `k` fully accepted iterations starting with
KV-cache content `kv`. -/
def sampledToks (env : GenEnv) (temp : Temperature) : Nat → List Token → List Token
  | 0, _ => []
  | k + 1, kv => stepTok env temp kv :: sampledToks env temp k (kv ++ [stepTok env temp kv])

/-- Concatenation of the text fragments of a token list. -/
def concatPieces (env : GenEnv) (ts : List Token) : Str :=
  ts.foldr (fun t acc => pieceText env t ++ acc) []

/-! ### Helper lemmas -/

theorem concatPieces_cons (env : GenEnv) (t : Token) (ts : List Token) :
    concatPieces env (t :: ts) = pieceText env t ++ concatPieces env ts := rfl

theorem loopState_succ (env : GenEnv) (temp : Temperature) (k : Nat)
    (s : List Token × Str) :
    loopState env temp (k + 1) s = loopState env temp k (stepKvAcc env temp s) := rfl

/-- The KV-cache part of the loop state after `k` accepted iterations. -/
theorem loopState_fst (env : GenEnv) (temp : Temperature) :
    ∀ (k : Nat) (s : List Token × Str),
      (loopState env temp k s).1 = s.1 ++ sampledToks env temp k s.1 := by
  intro k
  induction k with
  | zero => intro s; simp [loopState, sampledToks]
  | succ n ih =>
    intro s
    rw [loopState_succ, ih]
    simp [stepKvAcc, sampledToks, List.append_assoc]

/-- The accumulated text after `k` accepted iterations is the concatenation
of the pieces of the sampled tokens. -/
theorem loopState_snd (env : GenEnv) (temp : Temperature) :
    ∀ (k : Nat) (s : List Token × Str),
      (loopState env temp k s).2 = s.2 ++ concatPieces env (sampledToks env temp k s.1) := by
  intro k
  induction k with
  | zero => intro s; simp [loopState, sampledToks, concatPieces]
  | succ n ih =>
    intro s
    rw [loopState_succ, ih]
    simp [stepKvAcc, sampledToks, concatPieces_cons, List.append_assoc]

theorem isSampleEv_sampleEv (t : Token) : isSampleEv (Event.sampleEv t) = true := rfl

theorem isSampleEv_decodeEv (b : List Token) : isSampleEv (Event.decodeEv b) = false := rfl

theorem isSampleEv_memClear : isSampleEv Event.memClear = false := rfl

theorem isSampleEv_tokenizeEv (s : Str) : isSampleEv (Event.tokenizeEv s) = false := rfl

theorem isSampleEv_samplerInitEv (t : Temperature) (s : Nat) :
    isSampleEv (Event.samplerInitEv t s) = false := rfl

theorem isSampleEv_samplerFreeEv : isSampleEv Event.samplerFreeEv = false := rfl

theorem sampleCount_nil : sampleCount [] = 0 := rfl

theorem sampleCount_cons (e : Event) (tr : List Event) :
    sampleCount (e :: tr) = sampleCount tr + (if isSampleEv e then 1 else 0) := by
  simp [sampleCount, List.countP_cons]

theorem sampleCount_append (tr1 tr2 : List Event) :
    sampleCount (tr1 ++ tr2) = sampleCount tr1 + sampleCount tr2 := by
  simp [sampleCount, List.countP_append]

/-- At most `fuel` sampling calls happen in `fuel` remaining iterations. -/
theorem genLoop_sampleCount_le (env : GenEnv) (temp : Temperature) :
    ∀ (fuel : Nat) (kv : List Token) (acc : Str),
      sampleCount (genLoop env temp fuel kv acc).2.2 ≤ fuel := by
  intro fuel
  induction fuel with
  | zero => intro kv acc; simp [genLoop, sampleCount_nil]
  | succ n ih =>
    intro kv acc
    simp only [genLoop]
    split
    · simp [sampleCount_cons, sampleCount_nil, isSampleEv_sampleEv]
    · split
      · simp [sampleCount_cons, sampleCount_nil, isSampleEv_sampleEv]
      · split
        · have h := ih (kv ++ [env.sample temp LLAMA_DEFAULT_SEED kv])
            (acc ++ pieceText env (env.sample temp LLAMA_DEFAULT_SEED kv))
          simp [sampleCount_cons, isSampleEv_sampleEv, isSampleEv_decodeEv]
          omega
        · simp [sampleCount_cons, sampleCount_nil, isSampleEv_sampleEv,
            isSampleEv_decodeEv]

/-- One accepted iteration unfolds `genLoop` by one step. -/
theorem genLoop_step (env : GenEnv) (temp : Temperature) (fuel : Nat)
    (s : List Token × Str) (hok : stepOkB env temp s = true) :
    genLoop env temp (fuel + 1) s.1 s.2 =
      ((genLoop env temp fuel (stepKvAcc env temp s).1 (stepKvAcc env temp s).2).1,
       (genLoop env temp fuel (stepKvAcc env temp s).1 (stepKvAcc env temp s).2).2.1,
       Event.sampleEv (stepTok env temp s.1) ::
         Event.decodeEv [stepTok env temp s.1] ::
           (genLoop env temp fuel (stepKvAcc env temp s).1 (stepKvAcc env temp s).2).2.2) := by
  simp only [stepOkB, Bool.and_eq_true, Bool.not_eq_eq_eq_not, Bool.not_true,
    Option.isNone_iff_eq_none] at hok
  obtain ⟨⟨hEog, hFind⟩, hDec⟩ := hok
  simp only [genLoop, stepTok] at *
  rw [hEog, hFind, hDec]
  simp [stepKvAcc, stepTok]

/-- Running the loop past `k` accepted iterations: the loop reaches the
state after `k` iterations, having contributed `accTrace` to the trace. -/
theorem genLoop_reach (env : GenEnv) (temp : Temperature) :
    ∀ (k fuel : Nat) (s : List Token × Str), k ≤ fuel →
      (∀ j, j < k → stepOkB env temp (loopState env temp j s) = true) →
      genLoop env temp fuel s.1 s.2 =
        ((genLoop env temp (fuel - k) (loopState env temp k s).1
            (loopState env temp k s).2).1,
         (genLoop env temp (fuel - k) (loopState env temp k s).1
            (loopState env temp k s).2).2.1,
         accTrace env temp k s ++
           (genLoop env temp (fuel - k) (loopState env temp k s).1
              (loopState env temp k s).2).2.2) := by
  intro k
  induction k with
  | zero =>
    intro fuel s _ _
    simp [loopState, accTrace]
  | succ n ih =>
    intro fuel s hle hprev
    obtain ⟨f, rfl⟩ : ∃ f, fuel = f + 1 := ⟨fuel - 1, by omega⟩
    have h0 : stepOkB env temp s = true := by
      have := hprev 0 (Nat.succ_pos n)
      simpa [loopState] using this
    rw [genLoop_step env temp f s h0]
    have hrec := ih f (stepKvAcc env temp s) (by omega)
      (fun j hj => by
        have := hprev (j + 1) (by omega)
        simpa [loopState_succ] using this)
    rw [hrec]
    simp [loopState_succ, accTrace, Nat.succ_sub_succ]

/-- `accTrace` contains exactly `k` sampling events. -/
theorem accTrace_sampleCount (env : GenEnv) (temp : Temperature) :
    ∀ (k : Nat) (s : List Token × Str),
      sampleCount (accTrace env temp k s) = k := by
  intro k
  induction k with
  | zero => intro s; simp [accTrace, sampleCount]
  | succ n ih =>
    intro s
    simp [accTrace, sampleCount_cons, isSampleEv_sampleEv, isSampleEv_decodeEv,
      ih (stepKvAcc env temp s)]

/-- Sampling an end-of-generation token stops the loop at once: nothing is
appended, the KV cache is not advanced. -/
theorem genLoop_eog (env : GenEnv) (temp : Temperature) (fuel : Nat)
    (s : List Token × Str) (h : env.isEog (stepTok env temp s.1) = true) :
    genLoop env temp (fuel + 1) s.1 s.2 =
      (s.2, s.1, [Event.sampleEv (stepTok env temp s.1)]) := by
  simp only [stepTok] at h
  simp [genLoop, h, stepTok]

/-- Finding the stop marker after the append truncates and stops. -/
theorem genLoop_marker (env : GenEnv) (temp : Temperature) (fuel : Nat)
    (s : List Token × Str) (pos : Nat)
    (hEog : env.isEog (stepTok env temp s.1) = false)
    (hFind : findSub stopMarker (s.2 ++ pieceText env (stepTok env temp s.1)) = some pos) :
    genLoop env temp (fuel + 1) s.1 s.2 =
      ((s.2 ++ pieceText env (stepTok env temp s.1)).take pos, s.1,
       [Event.sampleEv (stepTok env temp s.1)]) := by
  simp only [stepTok] at hEog hFind
  simp [genLoop, hEog, hFind, stepTok]

/-- An incremental decode failure stops the loop, keeping the text
accumulated so far (the freshly appended piece included). -/
theorem genLoop_decodeFail (env : GenEnv) (temp : Temperature) (fuel : Nat)
    (s : List Token × Str)
    (hEog : env.isEog (stepTok env temp s.1) = false)
    (hFind : findSub stopMarker (s.2 ++ pieceText env (stepTok env temp s.1)) = none)
    (hDec : env.decodeOk s.1 [stepTok env temp s.1] = false) :
    genLoop env temp (fuel + 1) s.1 s.2 =
      (s.2 ++ pieceText env (stepTok env temp s.1), s.1,
       [Event.sampleEv (stepTok env temp s.1),
        Event.decodeEv [stepTok env temp s.1]]) := by
  simp only [stepTok] at hEog hFind hDec
  simp [genLoop, hEog, hFind, hDec, stepTok]

/-- On the success path (loaded engine, context with a memory, prompt fits,
prefill succeeds) `nativeGenerate` is the generation loop run on the
tokenized prompt with a cleared KV cache. -/
theorem nativeGenerate_run (env : GenEnv) (st : GState) (prompt : Str)
    (maxTokens : Int) (temp : Temperature)
    (hl : st.is_loaded = true) (hc : st.ctx.isNone = false)
    (hm : st.model.isNone = false) (hmem : env.hasMemory = true)
    (hfit : (env.tokenizeFull prompt).length ≤ st.nCtx)
    (hpre : env.decodeOk [] (env.tokenizeFull prompt) = true) :
    nativeGenerate env st prompt maxTokens temp =
      ((genLoop env temp maxTokens.toNat (env.tokenizeFull prompt) []).1,
       { st with kv := (genLoop env temp maxTokens.toNat (env.tokenizeFull prompt) []).2.1 },
       [Event.memClear, Event.tokenizeEv prompt,
        Event.decodeEv (env.tokenizeFull prompt),
        Event.samplerInitEv temp LLAMA_DEFAULT_SEED] ++
         (genLoop env temp maxTokens.toNat (env.tokenizeFull prompt) []).2.2 ++
         [Event.samplerFreeEv]) := by
  have hcond : (!st.is_loaded || st.ctx.isNone || st.model.isNone) = false := by
    rw [hl, hc, hm]; rfl
  have htok : ¬ llama_tokenize env prompt st.nCtx < 0 := by
    simp only [llama_tokenize]
    rw [if_neg (by omega)]
    omega
  simp [nativeGenerate, hcond, hmem, htok, hpre]

/-- `findSub` returns the index of the first occurrence: the pattern is a
prefix of the suffix there and of no earlier suffix. -/
theorem findSub_first (pat : Str) :
    ∀ (l : Str) (n : Nat), findSub pat l = some n →
      pat.isPrefixOf (l.drop n) = true ∧
        ∀ m, m < n → pat.isPrefixOf (l.drop m) = false := by
  intro l
  induction l with
  | nil =>
    intro n h
    simp only [findSub] at h
    by_cases hp : pat.isEmpty
    · rw [if_pos hp] at h
      obtain rfl : n = 0 := by simpa using h.symm
      refine ⟨?_, by omega⟩
      rcases pat with _ | ⟨c, cs⟩
      · rfl
      · simp [List.isEmpty] at hp
    · rw [if_neg hp] at h
      exact absurd h (by simp)
  | cons c rest ih =>
    intro n h
    simp only [findSub] at h
    by_cases hp : pat.isPrefixOf (c :: rest) = true
    · rw [if_pos hp] at h
      obtain rfl : n = 0 := by simpa using h.symm
      exact ⟨hp, by omega⟩
    · rw [if_neg hp] at h
      obtain ⟨k, hk, rfl⟩ : ∃ k, findSub pat rest = some k ∧ k + 1 = n := by
        rcases hfind : findSub pat rest with _ | k
        · rw [hfind] at h; simp at h
        · rw [hfind] at h
          simp only [Option.map_some'] at h
          exact ⟨k, rfl, by simpa using h⟩
      obtain ⟨h1, h2⟩ := ih k hk
      refine ⟨by simpa using h1, ?_⟩
      intro m hm
      match m with
      | 0 =>
        simp only [List.drop_zero]
        exact Bool.not_eq_true _ ▸ (by simpa using hp)
      | j + 1 =>
        simp only [List.drop_succ_cons]
        exact h2 j (by omega)

/-- `nativeGenerate` only ever changes the `kv` field of the state. -/
theorem nativeGenerate_state (env : GenEnv) (st : GState) (prompt : Str)
    (maxTokens : Int) (temp : Temperature) :
    (nativeGenerate env st prompt maxTokens temp).2.1 =
      { st with kv := (nativeGenerate env st prompt maxTokens temp).2.1.kv } := by
  simp only [nativeGenerate]
  repeat' split
  all_goals rfl

/-- With a memory handle present, the KV cache is cleared before anything
else, so the behaviour of `nativeGenerate` on a loaded engine does not
depend on the incoming KV-cache content. -/
theorem nativeGenerate_kv_irrel (env : GenEnv) (st : GState) (prompt : Str)
    (maxTokens : Int) (temp : Temperature) (kv1 kv2 : List Token)
    (hl : st.is_loaded = true) (hc : st.ctx.isNone = false)
    (hm : st.model.isNone = false) (hmem : env.hasMemory = true) :
    nativeGenerate env { st with kv := kv1 } prompt maxTokens temp =
      nativeGenerate env { st with kv := kv2 } prompt maxTokens temp := by
  have hcond : (!st.is_loaded || st.ctx.isNone || st.model.isNone) = false := by
    rw [hl, hc, hm]; rfl
  simp only [nativeGenerate, hmem, hcond]
  rfl

/-- The token sampled at iteration `k` of a loop that started with KV-cache
content `kv0`, assuming the first `k` iterations were fully accepted. -/
def iterTok (env : GenEnv) (temp : Temperature) (kv0 : List Token) (k : Nat) : Token :=
  stepTok env temp (kv0 ++ sampledToks env temp k kv0)

/-- The text accumulated by `k` fully accepted iterations from `kv0`. -/
def iterText (env : GenEnv) (temp : Temperature) (kv0 : List Token) (k : Nat) : Str :=
  concatPieces env (sampledToks env temp k kv0)

theorem iterTok_eq (env : GenEnv) (temp : Temperature) (kv0 : List Token) (k : Nat) :
    iterTok env temp kv0 k = stepTok env temp (loopState env temp k (kv0, [])).1 := by
  rw [loopState_fst]
  rfl

theorem iterText_eq (env : GenEnv) (temp : Temperature) (kv0 : List Token) (k : Nat) :
    iterText env temp kv0 k = (loopState env temp k (kv0, [])).2 := by
  rw [loopState_snd]; rfl

/-- Full run of the loop ending with an end-of-generation token at
iteration `k < fuel`: the result is exactly the pieces of the `k`
previously sampled tokens; the loop stops at iteration `k`. -/
theorem genLoop_eog_run (env : GenEnv) (temp : Temperature) (fuel k : Nat)
    (kv0 : List Token) (hk : k < fuel)
    (hprev : ∀ j, j < k → stepOkB env temp (loopState env temp j (kv0, [])) = true)
    (heog : env.isEog (iterTok env temp kv0 k) = true) :
    genLoop env temp fuel kv0 [] =
      (iterText env temp kv0 k,
       kv0 ++ sampledToks env temp k kv0,
       accTrace env temp k (kv0, []) ++ [Event.sampleEv (iterTok env temp kv0 k)]) := by
  have hreach := genLoop_reach env temp k fuel (kv0, []) (by omega) hprev
  obtain ⟨f, hf⟩ : ∃ f, fuel - k = f + 1 := ⟨fuel - k - 1, by omega⟩
  rw [hf] at hreach
  rw [iterTok_eq] at heog
  have hstop := genLoop_eog env temp f (loopState env temp k (kv0, [])) heog
  rw [hstop] at hreach
  simpa [iterTok_eq, iterText_eq, loopState_fst, loopState_snd] using hreach

/-- Full run of the loop ending with the stop marker appearing at iteration
`k < fuel`: the result is the accumulated text truncated at position `pos`
where the marker was found; the loop stops at iteration `k`. -/
theorem genLoop_marker_run (env : GenEnv) (temp : Temperature) (fuel k pos : Nat)
    (kv0 : List Token) (hk : k < fuel)
    (hprev : ∀ j, j < k → stepOkB env temp (loopState env temp j (kv0, [])) = true)
    (heog : env.isEog (iterTok env temp kv0 k) = false)
    (hfind : findSub stopMarker
        (iterText env temp kv0 k ++ pieceText env (iterTok env temp kv0 k)) = some pos) :
    genLoop env temp fuel kv0 [] =
      ((iterText env temp kv0 k ++ pieceText env (iterTok env temp kv0 k)).take pos,
       kv0 ++ sampledToks env temp k kv0,
       accTrace env temp k (kv0, []) ++ [Event.sampleEv (iterTok env temp kv0 k)]) := by
  have hreach := genLoop_reach env temp k fuel (kv0, []) (by omega) hprev
  obtain ⟨f, hf⟩ : ∃ f, fuel - k = f + 1 := ⟨fuel - k - 1, by omega⟩
  rw [hf] at hreach
  rw [iterTok_eq] at heog
  rw [iterTok_eq, iterText_eq] at hfind
  have hstop := genLoop_marker env temp f (loopState env temp k (kv0, [])) pos heog hfind
  rw [hstop] at hreach
  simpa [iterTok_eq, iterText_eq, loopState_fst, loopState_snd] using hreach

/-- Full run of the loop ending with an incremental decode failure at
iteration `k < fuel`: the result is the text accumulated through iteration
`k` (the freshly appended piece included); the loop stops there. -/
theorem genLoop_decodeFail_run (env : GenEnv) (temp : Temperature) (fuel k : Nat)
    (kv0 : List Token) (hk : k < fuel)
    (hprev : ∀ j, j < k → stepOkB env temp (loopState env temp j (kv0, [])) = true)
    (heog : env.isEog (iterTok env temp kv0 k) = false)
    (hfind : findSub stopMarker
        (iterText env temp kv0 k ++ pieceText env (iterTok env temp kv0 k)) = none)
    (hdec : env.decodeOk (kv0 ++ sampledToks env temp k kv0) [iterTok env temp kv0 k] = false) :
    genLoop env temp fuel kv0 [] =
      (iterText env temp kv0 k ++ pieceText env (iterTok env temp kv0 k),
       kv0 ++ sampledToks env temp k kv0,
       accTrace env temp k (kv0, []) ++
         [Event.sampleEv (iterTok env temp kv0 k),
          Event.decodeEv [iterTok env temp kv0 k]]) := by
  have hreach := genLoop_reach env temp k fuel (kv0, []) (by omega) hprev
  obtain ⟨f, hf⟩ : ∃ f, fuel - k = f + 1 := ⟨fuel - k - 1, by omega⟩
  rw [hf] at hreach
  rw [iterTok_eq] at heog
  rw [iterTok_eq, iterText_eq] at hfind
  have hdec2 : env.decodeOk (loopState env temp k (kv0, [])).1
      [stepTok env temp (loopState env temp k (kv0, [])).1] = false := by
    rw [loopState_fst]
    rw [iterTok_eq, loopState_fst] at hdec
    simpa using hdec
  have hstop := genLoop_decodeFail env temp f (loopState env temp k (kv0, [])) heog hfind hdec2
  rw [hstop] at hreach
  simpa [iterTok_eq, iterText_eq, loopState_fst, loopState_snd] using hreach

/-! ### Concrete data for the example runs -/

/-- Unloaded engine state (as after `nativeInit`, before any load). -/
def st0 : GState :=
  { model := none, ctx := none, vocab := none, is_loaded := false, kv := [], nCtx := 0 }

/-- A loaded engine state with context capacity 8. -/
def stL : GState :=
  { model := some 1, ctx := some 2, vocab := some 3, is_loaded := true, kv := [], nCtx := 8 }

/-- Environment A: the prompt tokenizes to `[10, 11]`, sampling returns the
current KV length, token 4 is end-of-generation, every piece is `"a"`,
every decode succeeds. -/
def envA : GenEnv where
  hasMemory := true
  tokenizeFull := fun _ => [10, 11]
  decodeOk := fun _ _ => true
  sample := fun _ _ kv => (kv.length : Int)
  isEog := fun t => t == 4
  tokenToPiece := fun _ => some ['a']

/-- Environment B: like A but the pieces of tokens 2 and 3 assemble the
stop marker, and no token is end-of-generation below 99. -/
def envB : GenEnv where
  hasMemory := true
  tokenizeFull := fun _ => [10, 11]
  decodeOk := fun _ _ => true
  sample := fun _ _ kv => (kv.length : Int)
  isEog := fun t => t == 99
  tokenToPiece := fun t =>
    if t = 2 then some "<|im_".toList
    else if t = 3 then some "end|>xy".toList
    else some ['b']

/-- Environment C: like A but decode fails once the KV cache holds three
tokens (so the incremental decode of the second generated token fails). -/
def envC : GenEnv where
  hasMemory := true
  tokenizeFull := fun _ => [10, 11]
  decodeOk := fun kv _ => decide (kv.length < 3)
  sample := fun _ _ kv => (kv.length : Int)
  isEog := fun t => t == 99
  tokenToPiece := fun _ => some ['a']

/-- Environment D: like A but every decode fails (prefill included). -/
def envD : GenEnv where
  hasMemory := true
  tokenizeFull := fun _ => [10, 11]
  decodeOk := fun _ _ => false
  sample := fun _ _ kv => (kv.length : Int)
  isEog := fun t => t == 4
  tokenToPiece := fun _ => some ['a']

/-- Environment E: the prompt's true token count (9) exceeds `stL`'s
context capacity (8). -/
def envE : GenEnv where
  hasMemory := true
  tokenizeFull := fun _ => List.replicate 9 (7 : Int)
  decodeOk := fun _ _ => true
  sample := fun _ _ kv => (kv.length : Int)
  isEog := fun t => t == 4
  tokenToPiece := fun _ => some ['a']

/-- Load environment: parsing succeeds with handle 5, context allocation
succeeds with handle 6. -/
def lenvOk : LoadEnv where
  loadModelFromFile := fun _ => some 5
  getVocab := fun m => m + 100
  initFromModel := fun _ _ _ => some 6

/-- Load environment: the file cannot be parsed as a model. -/
def lenvNoFile : LoadEnv where
  loadModelFromFile := fun _ => none
  getVocab := fun m => m + 100
  initFromModel := fun _ _ _ => some 6

/-- Load environment: the model parses (handle 5) but context allocation
fails. -/
def lenvNoCtx : LoadEnv where
  loadModelFromFile := fun _ => some 5
  getVocab := fun m => m + 100
  initFromModel := fun _ _ _ => none

/-! ### The claims -/

/-- C3: when the engine is not in the Loaded state (no successful
`loadModel`, or freed/unloaded), `nativeGenerate` returns the empty string
immediately, signals no error, leaves the state unchanged and performs no
work: no tokenization, no KV-cache access, no decoding. -/
theorem generate_not_loaded (env : GenEnv) (st : GState) (prompt : Str)
    (maxTokens : Int) (temp : Temperature)
    (h : st.is_loaded = false ∨ st.ctx = none ∨ st.model = none) :
    nativeGenerate env st prompt maxTokens temp = ([], st, []) := by
  have hcond : (!st.is_loaded || st.ctx.isNone || st.model.isNone) = true := by
    rcases h with h | h | h <;> simp [h]
  simp [nativeGenerate, hcond]

/-- Concrete run of C3: generating on the never-loaded state returns the
empty string, the unchanged state and an empty trace. -/
theorem generate_not_loaded_witness :
    nativeGenerate envA st0 "hi".toList 5 1 = ([], st0, []) :=
  generate_not_loaded envA st0 "hi".toList 5 1 (Or.inl rfl)

/-- C4: on a loaded engine (whose context has a memory), every
`nativeGenerate` call clears the KV cache as its first action, before
tokenization and prefill; consequently the call's behaviour is independent
of whatever KV-cache content was left by earlier calls. -/
theorem generate_clears_kv_first (env : GenEnv) (st : GState) (prompt : Str)
    (maxTokens : Int) (temp : Temperature)
    (hl : st.is_loaded = true) (hc : st.ctx.isNone = false)
    (hm : st.model.isNone = false) (hmem : env.hasMemory = true) :
    ((nativeGenerate env st prompt maxTokens temp).2.2.take 2 =
        [Event.memClear, Event.tokenizeEv prompt]) ∧
    (∀ kv1 kv2 : List Token,
      nativeGenerate env { st with kv := kv1 } prompt maxTokens temp =
        nativeGenerate env { st with kv := kv2 } prompt maxTokens temp) := by
  have hcond : (!st.is_loaded || st.ctx.isNone || st.model.isNone) = false := by
    rw [hl, hc, hm]; rfl
  constructor
  · simp only [nativeGenerate, hcond, hmem]
    repeat' split
    all_goals simp_all
  · intro kv1 kv2
    exact nativeGenerate_kv_irrel env st prompt maxTokens temp kv1 kv2 hl hc hm hmem

/-- Concrete run of C4: the trace starts with the clear, and two calls that
differ only in leftover KV-cache content coincide. -/
theorem generate_clears_kv_first_witness :
    ((nativeGenerate envA stL "hi".toList 3 0).2.2.take 2 =
        [Event.memClear, Event.tokenizeEv "hi".toList]) ∧
    nativeGenerate envA { stL with kv := [7] } "hi".toList 3 0 =
      nativeGenerate envA { stL with kv := [8, 9] } "hi".toList 3 0 := by
  have h := generate_clears_kv_first envA stL "hi".toList 3 0 rfl rfl rfl rfl
  exact ⟨h.1, h.2 [7] [8, 9]⟩

/-- C5: a prompt whose true token count exceeds the context capacity makes
`llama_tokenize` report overflow (a negative count); `nativeGenerate`
returns the empty string, submits nothing for decoding (no silent
truncation) and samples nothing. -/
theorem generate_tokenize_overflow (env : GenEnv) (st : GState) (prompt : Str)
    (maxTokens : Int) (temp : Temperature)
    (hl : st.is_loaded = true) (hc : st.ctx.isNone = false)
    (hm : st.model.isNone = false)
    (hover : st.nCtx < (env.tokenizeFull prompt).length) :
    (nativeGenerate env st prompt maxTokens temp).1 = [] ∧
    llama_tokenize env prompt st.nCtx < 0 ∧
    (∀ b, Event.decodeEv b ∉ (nativeGenerate env st prompt maxTokens temp).2.2) ∧
    sampleCount (nativeGenerate env st prompt maxTokens temp).2.2 = 0 := by
  have hcond : (!st.is_loaded || st.ctx.isNone || st.model.isNone) = false := by
    rw [hl, hc, hm]; rfl
  have htok : llama_tokenize env prompt st.nCtx < 0 := by
    simp only [llama_tokenize]
    rw [if_pos (by omega)]
    omega
  refine ⟨?_, htok, ?_, ?_⟩ <;>
    · simp only [nativeGenerate, hcond, htok]
      cases hmem : env.hasMemory <;>
        simp [sampleCount_cons, sampleCount_nil, isSampleEv_memClear,
          isSampleEv_tokenizeEv]

/-- Concrete run of C5: a 9-token prompt against capacity 8. -/
theorem generate_tokenize_overflow_witness :
    (nativeGenerate envE stL "hi".toList 3 0).1 = [] ∧
    llama_tokenize envE "hi".toList stL.nCtx < 0 ∧
    Event.decodeEv [7] ∉ (nativeGenerate envE stL "hi".toList 3 0).2.2 ∧
    sampleCount (nativeGenerate envE stL "hi".toList 3 0).2.2 = 0 := by
  have h := generate_tokenize_overflow envE stL "hi".toList 3 0 rfl rfl rfl (by decide)
  exact ⟨h.1, h.2.1, h.2.2.1 [7], h.2.2.2⟩

/-- C7: the sampler chain always uses the fixed default seed, so a second
`nativeGenerate` call with the same prompt, temperature and maxTokens,
issued on the state left by the first, returns the same text. -/
theorem generate_deterministic (env : GenEnv) (st : GState) (prompt : Str)
    (maxTokens : Int) (temp : Temperature) (hmem : env.hasMemory = true) :
    (nativeGenerate env (nativeGenerate env st prompt maxTokens temp).2.1
        prompt maxTokens temp).1 =
      (nativeGenerate env st prompt maxTokens temp).1 := by
  by_cases hcond : (!st.is_loaded || st.ctx.isNone || st.model.isNone) = true
  · have h1 : nativeGenerate env st prompt maxTokens temp = ([], st, []) := by
      simp [nativeGenerate, hcond]
    have h2 : (nativeGenerate env st prompt maxTokens temp).2.1 = st := by rw [h1]
    rw [h2, h1]
  · have hsplit : st.is_loaded = true ∧ st.ctx.isNone = false ∧ st.model.isNone = false := by
      constructor
      · cases h : st.is_loaded
        · exact absurd (by simp [h]) hcond
        · rfl
      constructor
      · cases h : st.ctx.isNone
        · rfl
        · exact absurd (by simp [h]) hcond
      · cases h : st.model.isNone
        · rfl
        · exact absurd (by simp [h]) hcond
    obtain ⟨hl, hc, hm⟩ := hsplit
    have hst := nativeGenerate_state env st prompt maxTokens temp
    calc (nativeGenerate env (nativeGenerate env st prompt maxTokens temp).2.1
            prompt maxTokens temp).1
        = (nativeGenerate env
            { st with kv := (nativeGenerate env st prompt maxTokens temp).2.1.kv }
            prompt maxTokens temp).1 := by rw [← hst]
      _ = (nativeGenerate env { st with kv := st.kv } prompt maxTokens temp).1 := by
            rw [nativeGenerate_kv_irrel env st prompt maxTokens temp
              (nativeGenerate env st prompt maxTokens temp).2.1.kv st.kv hl hc hm hmem]
      _ = (nativeGenerate env st prompt maxTokens temp).1 := rfl

/-- Concrete run of C7: repeating the call on the produced state yields the
same text. -/
theorem generate_deterministic_witness :
    (nativeGenerate envA (nativeGenerate envA stL "hi".toList 3 0).2.1
        "hi".toList 3 0).1 =
      (nativeGenerate envA stL "hi".toList 3 0).1 :=
  generate_deterministic envA stL "hi".toList 3 0 rfl

/-- C10: `nativeGenerate` is total over every integer `maxTokens`: for any
`maxTokens ≤ 0` on a loaded engine the loop runs zero iterations and the
empty string is returned, after the KV cache was still cleared and the
prompt still prefilled (the trace is exactly clear, tokenize, prefill
decode, sampler init, sampler free). -/
theorem generate_nonpositive_maxTokens (env : GenEnv) (st : GState) (prompt : Str)
    (maxTokens : Int) (temp : Temperature)
    (hl : st.is_loaded = true) (hc : st.ctx.isNone = false)
    (hm : st.model.isNone = false) (hmem : env.hasMemory = true)
    (hfit : (env.tokenizeFull prompt).length ≤ st.nCtx)
    (hpre : env.decodeOk [] (env.tokenizeFull prompt) = true)
    (hneg : maxTokens ≤ 0) :
    (nativeGenerate env st prompt maxTokens temp).1 = [] ∧
    sampleCount (nativeGenerate env st prompt maxTokens temp).2.2 = 0 ∧
    (nativeGenerate env st prompt maxTokens temp).2.2 =
      [Event.memClear, Event.tokenizeEv prompt,
       Event.decodeEv (env.tokenizeFull prompt),
       Event.samplerInitEv temp LLAMA_DEFAULT_SEED, Event.samplerFreeEv] := by
  have hrun := nativeGenerate_run env st prompt maxTokens temp hl hc hm hmem hfit hpre
  have h0 : maxTokens.toNat = 0 := Int.toNat_eq_zero.mpr hneg
  rw [h0] at hrun
  simp only [genLoop] at hrun
  rw [hrun]
  refine ⟨rfl, rfl, rfl⟩

/-- Concrete run of C10 with `maxTokens = -2`. -/
theorem generate_nonpositive_maxTokens_witness :
    (nativeGenerate envA stL "hi".toList (-2) 0).1 = [] ∧
    sampleCount (nativeGenerate envA stL "hi".toList (-2) 0).2.2 = 0 ∧
    (nativeGenerate envA stL "hi".toList (-2) 0).2.2 =
      [Event.memClear, Event.tokenizeEv "hi".toList, Event.decodeEv [10, 11],
       Event.samplerInitEv 0 LLAMA_DEFAULT_SEED, Event.samplerFreeEv] :=
  generate_nonpositive_maxTokens envA stL "hi".toList (-2) 0 rfl rfl rfl rfl
    (by decide) rfl (by decide)

/-- C1: on a loaded engine the sampling loop of `nativeGenerate` runs at
most `maxTokens` iterations; and if the token sampled at iteration
`k < maxTokens` is an end-of-generation token (the first `k` iterations
having been fully accepted), the loop stops at iteration `k`, that token is
not appended, and exactly the concatenated pieces of the `k` previously
sampled tokens are returned. -/
theorem generate_eog_stops (env : GenEnv) (st : GState) (prompt : Str)
    (maxTokens : Int) (temp : Temperature) (k : Nat)
    (hl : st.is_loaded = true) (hc : st.ctx.isNone = false)
    (hm : st.model.isNone = false) (hmem : env.hasMemory = true)
    (hfit : (env.tokenizeFull prompt).length ≤ st.nCtx)
    (hpre : env.decodeOk [] (env.tokenizeFull prompt) = true) :
    sampleCount (nativeGenerate env st prompt maxTokens temp).2.2 ≤ maxTokens.toNat ∧
    (k < maxTokens.toNat →
      (∀ j, j < k → stepOkB env temp
          (loopState env temp j (env.tokenizeFull prompt, [])) = true) →
      env.isEog (iterTok env temp (env.tokenizeFull prompt) k) = true →
      (nativeGenerate env st prompt maxTokens temp).1 =
          iterText env temp (env.tokenizeFull prompt) k ∧
        sampleCount (nativeGenerate env st prompt maxTokens temp).2.2 = k + 1) := by
  have hrun := nativeGenerate_run env st prompt maxTokens temp hl hc hm hmem hfit hpre
  constructor
  · rw [hrun]
    simp only [sampleCount_append, sampleCount_cons, sampleCount_nil,
      isSampleEv_memClear, isSampleEv_tokenizeEv, isSampleEv_decodeEv,
      isSampleEv_samplerInitEv, isSampleEv_samplerFreeEv]
    have h3 := genLoop_sampleCount_le env temp maxTokens.toNat (env.tokenizeFull prompt) []
    simp only [Bool.false_eq_true, if_false]
    omega
  · intro hk hprev heog
    have hloop := genLoop_eog_run env temp maxTokens.toNat k (env.tokenizeFull prompt)
      hk hprev heog
    rw [hrun, hloop]
    refine ⟨rfl, ?_⟩
    simp only [sampleCount_append, sampleCount_cons, sampleCount_nil,
      isSampleEv_memClear, isSampleEv_tokenizeEv, isSampleEv_decodeEv,
      isSampleEv_samplerInitEv, isSampleEv_samplerFreeEv, isSampleEv_sampleEv,
      accTrace_sampleCount]
    simp

/-- Concrete run of C1: with environment A and `maxTokens = 3`, token 4
(end-of-generation) is sampled at iteration 2, so the two pieces of the two
previous tokens come back and the loop ran all three iterations. -/
theorem generate_eog_stops_witness :
    sampleCount (nativeGenerate envA stL "hi".toList 3 0).2.2 ≤ (3 : Int).toNat ∧
    ((nativeGenerate envA stL "hi".toList 3 0).1 =
        iterText envA 0 (envA.tokenizeFull "hi".toList) 2 ∧
      sampleCount (nativeGenerate envA stL "hi".toList 3 0).2.2 = 2 + 1) := by
  have h := generate_eog_stops envA stL "hi".toList 3 0 2 rfl rfl rfl rfl (by decide) rfl
  exact ⟨h.1, h.2 (by decide) (by decide) (by decide)⟩

/-- C2: if after appending the freshly detokenized fragment at iteration
`k` the accumulated text contains the literal marker `<|im_end|>`, then the
returned result is that text truncated at the first occurrence of the
marker (marker and everything after it discarded) and the loop stops at
iteration `k`.  The position `pos` reported by `findSub` is the first
occurrence: the marker starts there and at no earlier position. -/
theorem generate_marker_truncates (env : GenEnv) (st : GState) (prompt : Str)
    (maxTokens : Int) (temp : Temperature) (k pos : Nat)
    (hl : st.is_loaded = true) (hc : st.ctx.isNone = false)
    (hm : st.model.isNone = false) (hmem : env.hasMemory = true)
    (hfit : (env.tokenizeFull prompt).length ≤ st.nCtx)
    (hpre : env.decodeOk [] (env.tokenizeFull prompt) = true)
    (hk : k < maxTokens.toNat)
    (hprev : ∀ j, j < k → stepOkB env temp
        (loopState env temp j (env.tokenizeFull prompt, [])) = true)
    (heog : env.isEog (iterTok env temp (env.tokenizeFull prompt) k) = false)
    (hfind : findSub stopMarker
        (iterText env temp (env.tokenizeFull prompt) k ++
          pieceText env (iterTok env temp (env.tokenizeFull prompt) k)) = some pos) :
    (nativeGenerate env st prompt maxTokens temp).1 =
        (iterText env temp (env.tokenizeFull prompt) k ++
          pieceText env (iterTok env temp (env.tokenizeFull prompt) k)).take pos ∧
      sampleCount (nativeGenerate env st prompt maxTokens temp).2.2 = k + 1 ∧
      stopMarker.isPrefixOf
        ((iterText env temp (env.tokenizeFull prompt) k ++
          pieceText env (iterTok env temp (env.tokenizeFull prompt) k)).drop pos) = true ∧
      (∀ m, m < pos → stopMarker.isPrefixOf
        ((iterText env temp (env.tokenizeFull prompt) k ++
          pieceText env (iterTok env temp (env.tokenizeFull prompt) k)).drop m) = false) := by
  have hrun := nativeGenerate_run env st prompt maxTokens temp hl hc hm hmem hfit hpre
  have hloop := genLoop_marker_run env temp maxTokens.toNat k pos
    (env.tokenizeFull prompt) hk hprev heog hfind
  obtain ⟨hocc, hfirst⟩ := findSub_first stopMarker _ pos hfind
  rw [hrun, hloop]
  refine ⟨rfl, ?_, hocc, hfirst⟩
  simp only [sampleCount_append, sampleCount_cons, sampleCount_nil,
    isSampleEv_memClear, isSampleEv_tokenizeEv, isSampleEv_decodeEv,
    isSampleEv_samplerInitEv, isSampleEv_samplerFreeEv, isSampleEv_sampleEv,
    accTrace_sampleCount]
  simp

/-- Concrete run of C2: with environment B the pieces of iterations 0 and 1
assemble `<|im_end|>xy`; the marker is found at position 0, the result is
the empty truncation and the loop stopped after iteration 1. -/
theorem generate_marker_truncates_witness :
    (nativeGenerate envB stL "hi".toList 5 0).1 =
        (iterText envB 0 (envB.tokenizeFull "hi".toList) 1 ++
          pieceText envB (iterTok envB 0 (envB.tokenizeFull "hi".toList) 1)).take 0 ∧
      sampleCount (nativeGenerate envB stL "hi".toList 5 0).2.2 = 1 + 1 ∧
      stopMarker.isPrefixOf
        ((iterText envB 0 (envB.tokenizeFull "hi".toList) 1 ++
          pieceText envB (iterTok envB 0 (envB.tokenizeFull "hi".toList) 1)).drop 0) = true := by
  have h := generate_marker_truncates envB stL "hi".toList 5 0 1 0 rfl rfl rfl rfl
    (by decide) rfl (by decide) (by decide) (by decide) (by decide)
  exact ⟨h.1, h.2.1, h.2.2.1⟩

/-- C6: decode failure is handled in two distinct ways: a failing prefill
decode yields the empty string with no token sampled; a failing incremental
decode at iteration `k` stops the loop and returns exactly the text
accumulated through iteration `k` (its fresh piece included) as a partial
result. -/
theorem generate_decode_failures (env : GenEnv) (st : GState) (prompt : Str)
    (maxTokens : Int) (temp : Temperature)
    (hl : st.is_loaded = true) (hc : st.ctx.isNone = false)
    (hm : st.model.isNone = false) (hmem : env.hasMemory = true)
    (hfit : (env.tokenizeFull prompt).length ≤ st.nCtx) :
    (env.decodeOk [] (env.tokenizeFull prompt) = false →
      (nativeGenerate env st prompt maxTokens temp).1 = [] ∧
        sampleCount (nativeGenerate env st prompt maxTokens temp).2.2 = 0) ∧
    (∀ k, k < maxTokens.toNat →
      env.decodeOk [] (env.tokenizeFull prompt) = true →
      (∀ j, j < k → stepOkB env temp
          (loopState env temp j (env.tokenizeFull prompt, [])) = true) →
      env.isEog (iterTok env temp (env.tokenizeFull prompt) k) = false →
      findSub stopMarker (iterText env temp (env.tokenizeFull prompt) k ++
          pieceText env (iterTok env temp (env.tokenizeFull prompt) k)) = none →
      env.decodeOk (env.tokenizeFull prompt ++ sampledToks env temp k (env.tokenizeFull prompt))
          [iterTok env temp (env.tokenizeFull prompt) k] = false →
      (nativeGenerate env st prompt maxTokens temp).1 =
          iterText env temp (env.tokenizeFull prompt) k ++
            pieceText env (iterTok env temp (env.tokenizeFull prompt) k) ∧
        sampleCount (nativeGenerate env st prompt maxTokens temp).2.2 = k + 1) := by
  have hcond : (!st.is_loaded || st.ctx.isNone || st.model.isNone) = false := by
    rw [hl, hc, hm]; rfl
  have htok : ¬ llama_tokenize env prompt st.nCtx < 0 := by
    simp only [llama_tokenize]
    rw [if_neg (by omega)]
    omega
  constructor
  · intro hpref
    simp only [nativeGenerate, hcond, hmem, htok]
    simp [hpref, sampleCount_cons, sampleCount_nil, isSampleEv_memClear,
      isSampleEv_tokenizeEv, isSampleEv_decodeEv]
  · intro k hk hpre hprev heog hfind hdec
    have hrun := nativeGenerate_run env st prompt maxTokens temp hl hc hm hmem hfit hpre
    have hloop := genLoop_decodeFail_run env temp maxTokens.toNat k
      (env.tokenizeFull prompt) hk hprev heog hfind hdec
    rw [hrun, hloop]
    refine ⟨rfl, ?_⟩
    simp only [sampleCount_append, sampleCount_cons, sampleCount_nil,
      isSampleEv_memClear, isSampleEv_tokenizeEv, isSampleEv_decodeEv,
      isSampleEv_samplerInitEv, isSampleEv_samplerFreeEv, isSampleEv_sampleEv,
      accTrace_sampleCount]
    simp

/-- Concrete run of C6, both ways: with environment D the prefill decode
fails and nothing comes back; with environment C the incremental decode of
iteration 1 fails and the two pieces accumulated through iteration 1 come
back. -/
theorem generate_decode_failures_witness :
    ((nativeGenerate envD stL "hi".toList 5 0).1 = [] ∧
      sampleCount (nativeGenerate envD stL "hi".toList 5 0).2.2 = 0) ∧
    ((nativeGenerate envC stL "hi".toList 5 0).1 =
        iterText envC 0 (envC.tokenizeFull "hi".toList) 1 ++
          pieceText envC (iterTok envC 0 (envC.tokenizeFull "hi".toList) 1) ∧
      sampleCount (nativeGenerate envC stL "hi".toList 5 0).2.2 = 1 + 1) := by
  constructor
  · have h := generate_decode_failures envD stL "hi".toList 5 0 rfl rfl rfl rfl (by decide)
    exact h.1 rfl
  · have h := generate_decode_failures envC stL "hi".toList 5 0 rfl rfl rfl rfl (by decide)
    exact h.2 1 (by decide) (by decide) (by decide) (by decide) (by decide) (by decide)

/-- C8: calling `nativeLoadModel` while a model is loaded first frees the
existing context, then the existing model, and only then constructs the new
one: the trace begins with exactly those three calls in that order.  No
resource of the first load survives: the resulting state's model handle is
exactly what the new `llama_model_load_from_file` returned, and its context
handle exactly what the new `llama_init_from_model` returned on it. -/
theorem loadModel_frees_before_new_load (env : LoadEnv) (st : GState) (path : Str)
    (nThreads nCtx : Int) (c m : Nat)
    (hl : st.is_loaded = true) (hc : st.ctx = some c) (hm : st.model = some m) :
    ((nativeLoadModel env st path nThreads nCtx).2.2.take 3 =
        [Event.freeCtxEv c, Event.freeModelEv m, Event.loadModelEv path]) ∧
    ((nativeLoadModel env st path nThreads nCtx).2.1.model = none ∨
      (nativeLoadModel env st path nThreads nCtx).2.1.model =
        env.loadModelFromFile path) ∧
    (nativeLoadModel env st path nThreads nCtx).2.1.ctx =
        (env.loadModelFromFile path).bind
          (fun m2 => env.initFromModel m2 nCtx nThreads) := by
  simp only [nativeLoadModel, hl, hc, hm]
  rcases hload : env.loadModelFromFile path with _ | m2
  · simp [hload]
  · rcases hinit : env.initFromModel m2 nCtx nThreads with _ | c2 <;> simp [hload, hinit]

/-- Concrete run of C8: reloading over the loaded state frees context 2 and
model 1, in that order, before the new load returns model 5 and context 6. -/
theorem loadModel_frees_before_new_load_witness :
    ((nativeLoadModel lenvOk stL "m2.gguf".toList 4 8).2.2.take 3 =
        [Event.freeCtxEv 2, Event.freeModelEv 1, Event.loadModelEv "m2.gguf".toList]) ∧
    ((nativeLoadModel lenvOk stL "m2.gguf".toList 4 8).2.1.model = none ∨
      (nativeLoadModel lenvOk stL "m2.gguf".toList 4 8).2.1.model =
        lenvOk.loadModelFromFile "m2.gguf".toList) ∧
    (nativeLoadModel lenvOk stL "m2.gguf".toList 4 8).2.1.ctx =
        (lenvOk.loadModelFromFile "m2.gguf".toList).bind
          (fun m2 => lenvOk.initFromModel m2 8 4) :=
  loadModel_frees_before_new_load lenvOk stL "m2.gguf".toList 4 8 2 1 rfl rfl rfl

/-- C9: whenever `nativeLoadModel` fails — the file does not parse as a
model, or context allocation fails after a successful parse — it returns
`false`, `nativeIsLoaded` is `false` afterwards, and no partial resources
are retained: the resulting model and context handles are both absent, and
in the context-allocation-failure case the partially loaded model was
freed.  (The hypothesis `hcons` is the engine's own invariant: an unloaded
state holds no handles.) -/
theorem loadModel_failure_clean (env : LoadEnv) (st : GState) (path : Str)
    (nThreads nCtx : Int)
    (hcons : st.is_loaded = false → st.ctx = none ∧ st.model = none)
    (hfail : env.loadModelFromFile path = none ∨
      ∃ m, env.loadModelFromFile path = some m ∧
        env.initFromModel m nCtx nThreads = none) :
    (nativeLoadModel env st path nThreads nCtx).1 = false ∧
    nativeIsLoaded (nativeLoadModel env st path nThreads nCtx).2.1 = false ∧
    (nativeLoadModel env st path nThreads nCtx).2.1.model = none ∧
    (nativeLoadModel env st path nThreads nCtx).2.1.ctx = none ∧
    (∀ m, env.loadModelFromFile path = some m →
      Event.freeModelEv m ∈ (nativeLoadModel env st path nThreads nCtx).2.2) := by
  cases hload : st.is_loaded with
  | false =>
    obtain ⟨hctx, hmodel⟩ := hcons hload
    rcases hfail with hnf | ⟨m, hsome, hinit⟩
    · simp [nativeLoadModel, nativeIsLoaded, hload, hctx, hmodel, hnf]
    · simp [nativeLoadModel, nativeIsLoaded, hload, hctx, hmodel, hsome, hinit]
  | true =>
    rcases hfail with hnf | ⟨m, hsome, hinit⟩
    · rcases hctx : st.ctx with _ | c <;>
        rcases hmodel : st.model with _ | m1 <;>
          simp [nativeLoadModel, nativeIsLoaded, hload, hctx, hmodel, hnf]
    · rcases hctx : st.ctx with _ | c <;>
        rcases hmodel : st.model with _ | m1 <;>
          simp [nativeLoadModel, nativeIsLoaded, hload, hctx, hmodel, hsome, hinit]

/-- Concrete run of C9, both failure modes: an unparsable file, and a
context-allocation failure after parsing to model handle 5 (which is then
freed). -/
theorem loadModel_failure_clean_witness :
    ((nativeLoadModel lenvNoFile st0 "bad.gguf".toList 4 8).1 = false ∧
      nativeIsLoaded (nativeLoadModel lenvNoFile st0 "bad.gguf".toList 4 8).2.1 = false ∧
      (nativeLoadModel lenvNoFile st0 "bad.gguf".toList 4 8).2.1.model = none ∧
      (nativeLoadModel lenvNoFile st0 "bad.gguf".toList 4 8).2.1.ctx = none) ∧
    ((nativeLoadModel lenvNoCtx st0 "m.gguf".toList 4 8).1 = false ∧
      nativeIsLoaded (nativeLoadModel lenvNoCtx st0 "m.gguf".toList 4 8).2.1 = false ∧
      (nativeLoadModel lenvNoCtx st0 "m.gguf".toList 4 8).2.1.model = none ∧
      (nativeLoadModel lenvNoCtx st0 "m.gguf".toList 4 8).2.1.ctx = none ∧
      Event.freeModelEv 5 ∈ (nativeLoadModel lenvNoCtx st0 "m.gguf".toList 4 8).2.2) := by
  constructor
  · have h := loadModel_failure_clean lenvNoFile st0 "bad.gguf".toList 4 8
      (fun _ => ⟨rfl, rfl⟩) (Or.inl rfl)
    exact ⟨h.1, h.2.1, h.2.2.1, h.2.2.2.1⟩
  · have h := loadModel_failure_clean lenvNoCtx st0 "m.gguf".toList 4 8
      (fun _ => ⟨rfl, rfl⟩) (Or.inr ⟨5, rfl, rfl⟩)
    exact ⟨h.1, h.2.1, h.2.2.1, h.2.2.2.1, h.2.2.2.2 5 rfl⟩

end LlamaJNI
